import Mathlib

/-!
Shallow embedding of `scripts/models.py`: a build-time generator that
filters OpenAPI definition keys by category (`workflows` / `events`),
assembles import descriptors and renders a generated module file.

Python lists become `List`, the in-place `list.append` mutation of
`write_imports` is modelled by returning the final list, a Python
exception (failed `assert`, `IndexError`) becomes `Except.error` /
`Option.none`, and `list(set(xs))` becomes `List.dedup` (the claims are
about the resulting set, so the arbitrary iteration order of a Python
set is irrelevant).
-/

/-- Contiguous-sublist test on character lists: `subChars pat s` holds
when `pat` occurs contiguously inside `s` (matching the semantics of the
Python expression `pat in s` on strings). -/
def subChars (pat : List Char) : List Char → Bool
  | [] => pat.isEmpty
  | c :: rest => pat.isPrefixOf (c :: rest) || subChars pat rest

/-- Python substring containment `pat in s`. -/
def strContains (s pat : String) : Bool :=
  subChars pat.data s.data

/-- The module-level set `model_types = {"workflows", "events"}`. -/
def model_types : List String := ["workflows", "events"]

/-- The `inclusions` marker list of `filter_refs_on_models_type`. -/
def inclusions : List String := ["events", "event", "eventsource", "sensor"]

/-- The `exclusions` list built in the non-events branch of
`filter_refs_on_models_type`. -/
def exclusions : List String :=
  ["io.k8s.api.core.v1.Event", "io.k8s.api.core.v1.EventSeries",
   "io.k8s.api.core.v1.EventSource"]

/-- Embedding of `filter_refs_on_models_type(refs, models_type)`.
The Python loop over `inclusions` either accumulates, per marker, every
ref of the original list containing the marker (events branch), or
repeatedly filters the surviving list (other branch); the final
`list(set(...))` is `List.dedup`. -/
def filter_refs_on_models_type (refs : List String) (models_type : String) :
    List String :=
  if models_type = "events" then
    (inclusions.flatMap (fun inc => refs.filter (fun r => strContains r inc))).dedup
  else
    (inclusions.foldl
      (fun filtered inc =>
        filtered.filter (fun r => !strContains r inc && !exclusions.contains r))
      refs).dedup

/-- Embedding of Python `key.split(".")` on the character level:
splits at every a `.` character, keeping empty pieces, and yields `[[]]`
on the empty list (Python `"".split(".") == [""]`). -/
def splitChars : List Char → List (List Char)
  | [] => [[]]
  | c :: rest =>
    if c = '.' then [] :: splitChars rest
    else
      match splitChars rest with
      | [] => [[c]]
      | h :: t => (c :: h) :: t

/-- Python `ref.split(".")`. -/
def splitDot (s : String) : List String :=
  (splitChars s.data).map (fun cs => String.mk cs)

/-- Python `".".join(parts)`. -/
def joinDot : List String → String
  | [] => ""
  | [s] => s
  | s :: rest => s ++ "." ++ joinDot rest

/-- Python `s[0].upper() + s[1:]` (on a nonempty string; the identity on
the empty string, a case the generator never reaches). -/
def capFirst (s : String) : String :=
  match s.data with
  | [] => s
  | c :: cs => String.mk (c.toUpper :: cs)

/-- The frozen ordered dataclass `ImportReference(path, name, alias)`. -/
structure ImportReference where
  path : String
  name : String
  aliasOpt : Option String
deriving DecidableEq

/-- Property `rendered_import`: Python tests `if self.alias:` which is
false for `None` and for the empty string. -/
def ImportReference.rendered_import (r : ImportReference) : String :=
  match r.aliasOpt with
  | some a =>
    if a = "" then "from " ++ r.path ++ " import " ++ r.name ++ "\n"
    else "from " ++ r.path ++ " import " ++ r.name ++ " as " ++ a ++ "\n"
  | none => "from " ++ r.path ++ " import " ++ r.name ++ "\n"

/-- Property `aliased_name` (same truthiness test as `rendered_import`). -/
def ImportReference.aliased_name (r : ImportReference) : String :=
  match r.aliasOpt with
  | some a => if a = "" then r.name else a
  | none => r.name

/-- The loop body of `get_import_paths_from_refs` for a single ref.
Python `split[-2]` raises `IndexError` on a single-element list, which is
modelled by `none`; that only happens when the lone segment is
`HTTPHeader` or `LogEntry`, otherwise a descriptor is always produced. -/
def get_import_path (root_path ref : String) : Option ImportReference :=
  let split := splitDot ref
  let path := joinDot split.dropLast
  let obj := split.getLastD ""
  if obj = "HTTPHeader" ∨ obj = "LogEntry" then
    match split.dropLast.getLast? with
    | none => none
    | some penult =>
      some ⟨root_path ++ "." ++ path, obj, some (capFirst (penult ++ obj))⟩
  else
    some ⟨root_path ++ "." ++ path, obj, none⟩

/-- Embedding of `get_import_paths_from_refs(refs, root_path)`; the
whole call raises (returns `none`) as soon as one ref raises. -/
def get_import_paths_from_refs (refs : List String) (root_path : String) :
    Option (List ImportReference) :=
  refs.mapM (get_import_path root_path)

/-- Embedding of `assemble_root_path_from_models_type`. -/
def assemble_root_path_from_models_type (m_type : String) : String :=
  "hera." ++ m_type ++ ".models"

/-- Embedding of `get_openapi_spec_url()`: reads `sys.argv` (modelled as
the full argv list, program name included); the failed `assert` is an
`Except.error`. -/
def get_openapi_spec_url (argv : List String) : Except String String :=
  if argv.length = 3 then Except.ok (argv.getD 1 "")
  else Except.error
    "Expected two argv arguments - the Argo OpenAPI spec URL and [workflows|events]"

/-- Embedding of `get_models_type()`: checks the argv count, then that
the second positional argument is a member of `model_types`. -/
def get_models_type (argv : List String) : Except String String :=
  if argv.length = 3 then
    let arg := argv.getD 2 ""
    if arg ∈ model_types then Except.ok arg
    else Except.error ("Unsupported model type " ++ arg)
  else Except.error
    "Expected two argv arguments - the Argo OpenAPI spec URL and [workflows|events]"

/-- The prefix of `__main__` that runs before any network activity:
`get_models_type()` then `get_openapi_spec_url()`; the first failure
aborts the run. -/
def main_args_stage (argv : List String) : Except String (String × String) := do
  let t ← get_models_type argv
  let u ← get_openapi_spec_url argv
  pure (t, u)

/-- The URLs the run fetches: `fetch_openapi_spec` is reached only when
both argv checks succeed. -/
def fetched_urls (argv : List String) : List String :=
  match main_args_stage argv with
  | Except.error _ => []
  | Except.ok (_, u) => [u]

/-- The fixed event symbol list appended by `write_imports` when the
models type is `events`. -/
def event_symbols : List String :=
  ["Item", "Event", "EventResponse", "GetUserInfoResponse", "InfoResponse",
   "Version"]

/-- The fixed enum symbol list always appended by `write_imports`. -/
def enum_symbols : List String :=
  ["ImagePullPolicy", "TerminationMessagePolicy", "Protocol", "Scheme",
   "Operator", "Type", "Phase", "TypeModel", "Effect", "OperatorModel"]

/-- Python comparison of the optional `alias` field inside the dataclass
tuple order (`None` sorts first; the generator never compares `None`
against a string, so any total choice here is observationally equal). -/
def optStrLe : Option String → Option String → Bool
  | none, _ => true
  | some _, none => false
  | some a, some b => decide (a ≤ b)

/-- The dataclass `order=True` comparison on `(path, name, alias)`. -/
def refLe (a b : ImportReference) : Bool :=
  if a.path = b.path then
    if a.name = b.name then optStrLe a.aliasOpt b.aliasOpt
    else decide (a.name ≤ b.name)
  else decide (a.path ≤ b.path)

/-- The `models_strs` value of `write_imports`: the quoted aliased names
of every reference, sorted (Python `sorted` on strings). -/
def models_strs (references : List ImportReference) : List String :=
  (references.map (fun r => "\"" ++ r.aliased_name ++ "\"")).mergeSort
    (fun a b => decide (a ≤ b))

/-- The header block written first by `write_imports`: the only place
the OpenAPI spec URL enters the generated text. -/
def file_header (models_type openapi_spec_url : String) : String :=
  "\"\"\"[DO NOT EDIT MANUALLY] Auto-generated model classes.\n\n" ++
  "Auto-generated by Hera via `make " ++ models_type ++ "-models`.\n" ++
  "OpenAPI spec URL: " ++ openapi_spec_url ++ "\n\"\"\"\n\n"

/-- Embedding of `write_imports(references, models_type, openapi_spec_url)`.
Returns the full text written to the file together with the final value
of the `references` list, whose in-place growth by `references.append`
is visible to the caller after the Python function returns. -/
def write_imports (references : List ImportReference)
    (models_type openapi_spec_url : String) : String × List ImportReference :=
  let refs1 :=
    if models_type = "events" then
      references ++ event_symbols.map
        (fun e =>
          ImportReference.mk "hera.events.models.io.argoproj.workflow.v1alpha1" e none)
    else references
  let refs2 := refs1 ++ enum_symbols.map
    (fun e =>
      ImportReference.mk ("hera." ++ models_type ++ ".models.io.k8s.api.core.v1") e none)
  let imports_block :=
    String.join ((refs2.mergeSort refLe).map ImportReference.rendered_import)
  let models_str := String.intercalate ", " (models_strs refs2)
  (file_header models_type openapi_spec_url ++
    (imports_block ++ ("\n__all__ = [" ++ models_str ++ "]\n")), refs2)

/-- The descriptors `write_imports` appends for a given models type:
the six event symbols (events only) followed by the ten enum symbols. -/
def appended_refs (models_type : String) : List ImportReference :=
  (if models_type = "events" then
    event_symbols.map
      (fun e =>
        ImportReference.mk "hera.events.models.io.argoproj.workflow.v1alpha1" e none)
  else []) ++
  enum_symbols.map
    (fun e =>
      ImportReference.mk ("hera." ++ models_type ++ ".models.io.k8s.api.core.v1") e none)

/-! ### Helper lemmas -/

lemma splitChars_ne_nil : ∀ l : List Char, splitChars l ≠ [] := by
  intro l
  induction l with
  | nil => simp [splitChars]
  | cons c rest ih =>
    unfold splitChars
    split
    · simp
    · split
      · simp
      · simp

lemma splitDot_ne_nil (s : String) : splitDot s ≠ [] := by
  unfold splitDot
  simp [splitChars_ne_nil]

lemma mem_filter_events (refs : List String) (K : String) :
    K ∈ filter_refs_on_models_type refs "events" ↔
      K ∈ refs ∧ (strContains K "events" = true ∨ strContains K "event" = true ∨
        strContains K "eventsource" = true ∨ strContains K "sensor" = true) := by
  have huf : filter_refs_on_models_type refs "events"
      = (inclusions.flatMap (fun inc => refs.filter (fun r => strContains r inc))).dedup := by
    simp [filter_refs_on_models_type]
  rw [huf]
  simp only [List.mem_dedup, List.mem_flatMap, List.mem_filter, inclusions,
    List.mem_cons, List.not_mem_nil, or_false]
  constructor
  · rintro ⟨inc, hinc, hmem, hcon⟩
    exact ⟨hmem, by rcases hinc with h | h | h | h <;> subst h <;> tauto⟩
  · rintro ⟨hmem, h | h | h | h⟩
    exacts [⟨"events", by tauto, hmem, h⟩, ⟨"event", by tauto, hmem, h⟩,
      ⟨"eventsource", by tauto, hmem, h⟩, ⟨"sensor", by tauto, hmem, h⟩]

lemma mem_filter_not_events (refs : List String) (t K : String) (ht : ¬ t = "events") :
    K ∈ filter_refs_on_models_type refs t ↔
      K ∈ refs ∧
        ¬(strContains K "events" = true ∨ strContains K "event" = true ∨
          strContains K "eventsource" = true ∨ strContains K "sensor" = true ∨
          K = "io.k8s.api.core.v1.Event" ∨ K = "io.k8s.api.core.v1.EventSeries" ∨
          K = "io.k8s.api.core.v1.EventSource") := by
  have huf : filter_refs_on_models_type refs t
      = ((((refs.filter
              (fun r => !strContains r "events" && !exclusions.contains r)).filter
              (fun r => !strContains r "event" && !exclusions.contains r)).filter
              (fun r => !strContains r "eventsource" && !exclusions.contains r)).filter
              (fun r => !strContains r "sensor" && !exclusions.contains r)).dedup := by
    simp [filter_refs_on_models_type, ht, inclusions]
  rw [huf]
  simp only [List.mem_dedup, List.mem_filter, Bool.and_eq_true, Bool.not_eq_true']
  simp only [exclusions, List.contains_cons, List.contains_nil, Bool.or_eq_false_iff,
    beq_eq_false_iff_ne, ne_eq, and_true]
  constructor
  · rintro ⟨⟨⟨⟨hm, h1, hx⟩, h2, -⟩, h3, -⟩, h4, -⟩
    refine ⟨hm, ?_⟩
    simp only [Bool.not_eq_true] at *
    rintro (h | h | h | h | h | h | h) <;> simp_all
  · rintro ⟨hm, hn⟩
    push_neg at hn
    obtain ⟨n1, n2, n3, n4, e1, e2, e3⟩ := hn
    refine ⟨⟨⟨⟨hm, ?_, ?_, ?_, ?_⟩, ?_, ?_, ?_, ?_⟩, ?_, ?_, ?_, ?_⟩, ?_, ?_, ?_, ?_⟩ <;>
      simp_all

/-! ### Claim theorems -/

/-- C1: for every list of definition keys, filtering with category
`events` returns a de-duplicated set containing a key K if and only if K
contains at least one of the substrings `events`, `event`, `eventsource`,
`sensor`. -/
theorem events_filter_characterization (refs : List String) (K : String)
    (hK : K ∈ refs) :
    (filter_refs_on_models_type refs "events").Nodup ∧
      (K ∈ filter_refs_on_models_type refs "events" ↔
        (strContains K "events" = true ∨ strContains K "event" = true ∨
         strContains K "eventsource" = true ∨ strContains K "sensor" = true)) := by
  constructor
  · have huf : filter_refs_on_models_type refs "events"
        = (inclusions.flatMap (fun inc => refs.filter (fun r => strContains r inc))).dedup := by
      simp [filter_refs_on_models_type]
    rw [huf]
    exact List.nodup_dedup _
  · rw [mem_filter_events]
    tauto

/-- C1 witness: the key `io.argoproj.events.v1.Event` of a concrete
two-key input is kept by the events filter. -/
theorem events_filter_characterization_witness :
    ("io.argoproj.events.v1.Event" ∈
        (["io.argoproj.events.v1.Event", "io.k8s.api.core.v1.Pod"] : List String)) ∧
      ((filter_refs_on_models_type
          ["io.argoproj.events.v1.Event", "io.k8s.api.core.v1.Pod"] "events").Nodup ∧
        ("io.argoproj.events.v1.Event" ∈ filter_refs_on_models_type
            ["io.argoproj.events.v1.Event", "io.k8s.api.core.v1.Pod"] "events" ↔
          (strContains "io.argoproj.events.v1.Event" "events" = true ∨
           strContains "io.argoproj.events.v1.Event" "event" = true ∨
           strContains "io.argoproj.events.v1.Event" "eventsource" = true ∨
           strContains "io.argoproj.events.v1.Event" "sensor" = true))) :=
  ⟨by decide,
    events_filter_characterization
      ["io.argoproj.events.v1.Event", "io.k8s.api.core.v1.Pod"]
      "io.argoproj.events.v1.Event" (by decide)⟩

/-- C2: for every list of definition keys, filtering with category
`workflows` excludes a key K exactly when K contains one of the four
marker substrings or K is exactly one of the three fixed core-v1
exclusion keys; every other input key is in the de-duplicated result. -/
theorem workflows_filter_characterization (refs : List String) (K : String)
    (hK : K ∈ refs) :
    (filter_refs_on_models_type refs "workflows").Nodup ∧
      (K ∈ filter_refs_on_models_type refs "workflows" ↔
        ¬(strContains K "events" = true ∨ strContains K "event" = true ∨
          strContains K "eventsource" = true ∨ strContains K "sensor" = true ∨
          K = "io.k8s.api.core.v1.Event" ∨ K = "io.k8s.api.core.v1.EventSeries" ∨
          K = "io.k8s.api.core.v1.EventSource")) := by
  constructor
  · have huf : filter_refs_on_models_type refs "workflows"
        = ((((refs.filter
              (fun r => !strContains r "events" && !exclusions.contains r)).filter
              (fun r => !strContains r "event" && !exclusions.contains r)).filter
              (fun r => !strContains r "eventsource" && !exclusions.contains r)).filter
              (fun r => !strContains r "sensor" && !exclusions.contains r)).dedup := by
      simp [filter_refs_on_models_type, inclusions]
    rw [huf]
    exact List.nodup_dedup _
  · rw [mem_filter_not_events refs "workflows" K (by decide)]
    tauto

/-- C2 witness: in a concrete input holding `io.k8s.api.core.v1.Event`
and `io.k8s.api.core.v1.Pod`, the key `Pod` survives the workflows
filter. -/
theorem workflows_filter_characterization_witness :
    ("io.k8s.api.core.v1.Pod" ∈
        (["io.k8s.api.core.v1.Event", "io.k8s.api.core.v1.Pod"] : List String)) ∧
      ((filter_refs_on_models_type
          ["io.k8s.api.core.v1.Event", "io.k8s.api.core.v1.Pod"] "workflows").Nodup ∧
        ("io.k8s.api.core.v1.Pod" ∈ filter_refs_on_models_type
            ["io.k8s.api.core.v1.Event", "io.k8s.api.core.v1.Pod"] "workflows" ↔
          ¬(strContains "io.k8s.api.core.v1.Pod" "events" = true ∨
            strContains "io.k8s.api.core.v1.Pod" "event" = true ∨
            strContains "io.k8s.api.core.v1.Pod" "eventsource" = true ∨
            strContains "io.k8s.api.core.v1.Pod" "sensor" = true ∨
            "io.k8s.api.core.v1.Pod" = "io.k8s.api.core.v1.Event" ∨
            "io.k8s.api.core.v1.Pod" = "io.k8s.api.core.v1.EventSeries" ∨
            "io.k8s.api.core.v1.Pod" = "io.k8s.api.core.v1.EventSource"))) :=
  ⟨by decide,
    workflows_filter_characterization
      ["io.k8s.api.core.v1.Event", "io.k8s.api.core.v1.Pod"]
      "io.k8s.api.core.v1.Pod" (by decide)⟩

/-- C3: filtering is idempotent for both categories: re-filtering an
already-filtered list with the same category yields the same set of
keys. -/
theorem filter_idempotent (refs : List String) (t : String)
    (ht : t = "workflows" ∨ t = "events") (K : String) :
    K ∈ filter_refs_on_models_type (filter_refs_on_models_type refs t) t ↔
      K ∈ filter_refs_on_models_type refs t := by
  rcases ht with h | h <;> subst h
  · rw [mem_filter_not_events _ _ _ (by decide),
      mem_filter_not_events _ _ _ (by decide)]
    tauto
  · rw [mem_filter_events, mem_filter_events]
    tauto

/-- C3 witness: re-filtering a concrete filtered input with category
`events` keeps exactly the same keys. -/
theorem filter_idempotent_witness :
    (("events" : String) = "workflows" ∨ ("events" : String) = "events") ∧
      ("io.argoproj.events.v1.Sensor" ∈
          filter_refs_on_models_type
            (filter_refs_on_models_type
              ["io.argoproj.events.v1.Sensor", "io.k8s.api.core.v1.Pod"] "events")
            "events" ↔
        "io.argoproj.events.v1.Sensor" ∈
          filter_refs_on_models_type
            ["io.argoproj.events.v1.Sensor", "io.k8s.api.core.v1.Pod"] "events") :=
  ⟨Or.inr rfl,
    filter_idempotent ["io.argoproj.events.v1.Sensor", "io.k8s.api.core.v1.Pod"]
      "events" (Or.inr rfl) "io.argoproj.events.v1.Sensor"⟩

/-- C9: the events-filtered and workflows-filtered sets are disjoint,
and their union is the input set minus the three fixed exclusion keys,
which appear in neither output. -/
theorem filters_partition_input (refs : List String) (K : String) :
    ¬(K ∈ filter_refs_on_models_type refs "events" ∧
        K ∈ filter_refs_on_models_type refs "workflows") ∧
      ((K ∈ filter_refs_on_models_type refs "events" ∨
          K ∈ filter_refs_on_models_type refs "workflows") ↔
        (K ∈ refs ∧ K ≠ "io.k8s.api.core.v1.Event" ∧
          K ≠ "io.k8s.api.core.v1.EventSeries" ∧
          K ≠ "io.k8s.api.core.v1.EventSource")) := by
  rw [mem_filter_events, mem_filter_not_events refs "workflows" K (by decide)]
  have h1 : K = "io.k8s.api.core.v1.Event" →
      ¬(strContains K "events" = true ∨ strContains K "event" = true ∨
        strContains K "eventsource" = true ∨ strContains K "sensor" = true) := by
    rintro rfl; decide
  have h2 : K = "io.k8s.api.core.v1.EventSeries" →
      ¬(strContains K "events" = true ∨ strContains K "event" = true ∨
        strContains K "eventsource" = true ∨ strContains K "sensor" = true) := by
    rintro rfl; decide
  have h3 : K = "io.k8s.api.core.v1.EventSource" →
      ¬(strContains K "events" = true ∨ strContains K "event" = true ∨
        strContains K "eventsource" = true ∨ strContains K "sensor" = true) := by
    rintro rfl; decide
  constructor
  · tauto
  · constructor
    · tauto
    · rintro ⟨hm, e1, e2, e3⟩
      by_cases hc : strContains K "events" = true ∨ strContains K "event" = true ∨
          strContains K "eventsource" = true ∨ strContains K "sensor" = true
      · exact Or.inl ⟨hm, hc⟩
      · exact Or.inr ⟨hm, by tauto⟩

/-- C4 counterexample: on the single-segment key `HTTPHeader` the claim
asserts a descriptor with alias is produced, but the code evaluates
`split[-2]` on a one-element list and raises `IndexError`, modelled as
`none`: no descriptor is produced. -/
theorem import_assembly_single_segment_cex :
    get_import_path "hera.workflows.models" "HTTPHeader" = none := by decide

/-- C4 (amended): for every key other than a bare `HTTPHeader` or
`LogEntry` with fewer than two dotted segments, import assembly is the
pure function of (key, root path) described by the claim: module path is
the root followed by a dot and all segments but the last, the symbol is
the last segment, and the alias exists exactly for the colliding final
segments `HTTPHeader` / `LogEntry`, equal to the second-to-last segment
concatenated with the symbol, first character upper-cased. -/
theorem import_assembly_characterization (root_path ref : String)
    (h : ¬((splitDot ref).length = 1 ∧
      ((splitDot ref).getLastD "" = "HTTPHeader" ∨
        (splitDot ref).getLastD "" = "LogEntry"))) :
    get_import_path root_path ref =
      some ⟨root_path ++ "." ++ joinDot (splitDot ref).dropLast,
        (splitDot ref).getLastD "",
        if (splitDot ref).getLastD "" = "HTTPHeader" ∨
            (splitDot ref).getLastD "" = "LogEntry" then
          some (capFirst ((splitDot ref).dropLast.getLastD "" ++ (splitDot ref).getLastD ""))
        else none⟩ := by
  unfold get_import_path
  by_cases hc : (splitDot ref).getLastD "" = "HTTPHeader" ∨
      (splitDot ref).getLastD "" = "LogEntry"
  · have hlen : (splitDot ref).length ≠ 1 := fun h1 => h ⟨h1, hc⟩
    have hne : splitDot ref ≠ [] := splitDot_ne_nil ref
    have hdl : (splitDot ref).dropLast ≠ [] := by
      intro hnil
      have := List.length_dropLast (splitDot ref)
      rw [hnil] at this
      cases hsp : splitDot ref with
      | nil => exact hne hsp
      | cons a l =>
        rw [hsp] at this
        simp at this
        cases l with
        | nil => exact hlen (by rw [hsp]; rfl)
        | cons b m => simp [List.length] at this
    cases hp : (splitDot ref).dropLast.getLast? with
    | none => exact absurd (List.getLast?_eq_none_iff.mp hp) hdl
    | some penult =>
      have hpd : (splitDot ref).dropLast.getLastD "" = penult := by
        rw [List.getLastD_eq_getLast?, hp]; rfl
      simp only [if_pos hc, hp, hpd]
  · simp only [if_neg hc]

/-- C4 witness: the documented example key produces the documented
descriptor: module path `hera.workflows.models.io.k8s.api.core.v1`,
symbol `HTTPHeader`, alias `V1HTTPHeader`. -/
theorem import_assembly_characterization_witness :
    (¬((splitDot "io.k8s.api.core.v1.HTTPHeader").length = 1 ∧
        ((splitDot "io.k8s.api.core.v1.HTTPHeader").getLastD "" = "HTTPHeader" ∨
          (splitDot "io.k8s.api.core.v1.HTTPHeader").getLastD "" = "LogEntry"))) ∧
      get_import_path "hera.workflows.models" "io.k8s.api.core.v1.HTTPHeader" =
        some ⟨"hera.workflows.models.io.k8s.api.core.v1", "HTTPHeader",
          some "V1HTTPHeader"⟩ :=
  ⟨by decide,
    (import_assembly_characterization "hera.workflows.models"
        "io.k8s.api.core.v1.HTTPHeader" (by decide)).trans (by decide)⟩

/-- C5: with a wrong argument count, or a second positional argument
that is neither `workflows` nor `events`, the run fails its argv checks
and no URL is ever fetched. -/
theorem argument_error_before_fetch (argv : List String)
    (h : argv.length ≠ 3 ∨
      ¬(argv.getD 2 "" = "workflows" ∨ argv.getD 2 "" = "events")) :
    (∃ e, main_args_stage argv = Except.error e) ∧ fetched_urls argv = [] := by
  have hmt : ∃ e, get_models_type argv = Except.error e := by
    unfold get_models_type
    by_cases hl : argv.length = 3
    · rcases h with h | h
      · exact absurd hl h
      · rw [if_pos hl]
        have : ¬ argv.getD 2 "" ∈ model_types := by
          simp only [model_types, List.mem_cons, List.not_mem_nil, or_false]
          exact h
        rw [if_neg this]
        exact ⟨_, rfl⟩
    · rw [if_neg hl]
      exact ⟨_, rfl⟩
  obtain ⟨e, he⟩ := hmt
  have hstage : main_args_stage argv = Except.error e := by
    unfold main_args_stage
    rw [he]
    rfl
  refine ⟨⟨e, hstage⟩, ?_⟩
  unfold fetched_urls
  rw [hstage]

/-- C5 witness: invoking with second positional argument `sensors`
yields an argument error and fetches nothing. -/
theorem argument_error_before_fetch_witness :
    ((["models.py", "http://localhost/spec.json", "sensors"] : List String).length ≠ 3 ∨
      ¬((["models.py", "http://localhost/spec.json", "sensors"] : List String).getD 2 ""
          = "workflows" ∨
        (["models.py", "http://localhost/spec.json", "sensors"] : List String).getD 2 ""
          = "events")) ∧
      ((∃ e, main_args_stage ["models.py", "http://localhost/spec.json", "sensors"]
          = Except.error e) ∧
        fetched_urls ["models.py", "http://localhost/spec.json", "sensors"] = []) :=
  ⟨by decide,
    argument_error_before_fetch ["models.py", "http://localhost/spec.json", "sensors"]
      (by decide)⟩

/-- C6: generation is deterministic: two runs on the same reference list
and category produce the same bytes apart from the header, and the
header embeds the spec URL (`file_header` is the only URL-dependent
part). -/
theorem generation_deterministic_modulo_url (references : List ImportReference)
    (models_type u1 u2 : String) :
    ∃ body : String,
      (write_imports references models_type u1).fst
          = file_header models_type u1 ++ body ∧
        (write_imports references models_type u2).fst
          = file_header models_type u2 ++ body :=
  ⟨_, rfl, rfl⟩

/-- C8: `write_imports` always appends the ten fixed enum symbols from
the fixed core-v1 module path of the current category and, for category
`events`, additionally the six fixed event symbols from the fixed
`io.argoproj.workflow.v1alpha1` module path. -/
theorem fixed_symbols_always_appended (references : List ImportReference)
    (models_type url : String) :
    (write_imports references models_type url).snd =
      references ++
        (if models_type = "events" then
          [ImportReference.mk "hera.events.models.io.argoproj.workflow.v1alpha1"
              "Item" none,
            ImportReference.mk "hera.events.models.io.argoproj.workflow.v1alpha1"
              "Event" none,
            ImportReference.mk "hera.events.models.io.argoproj.workflow.v1alpha1"
              "EventResponse" none,
            ImportReference.mk "hera.events.models.io.argoproj.workflow.v1alpha1"
              "GetUserInfoResponse" none,
            ImportReference.mk "hera.events.models.io.argoproj.workflow.v1alpha1"
              "InfoResponse" none,
            ImportReference.mk "hera.events.models.io.argoproj.workflow.v1alpha1"
              "Version" none]
        else []) ++
        [ImportReference.mk ("hera." ++ models_type ++ ".models.io.k8s.api.core.v1")
            "ImagePullPolicy" none,
          ImportReference.mk ("hera." ++ models_type ++ ".models.io.k8s.api.core.v1")
            "TerminationMessagePolicy" none,
          ImportReference.mk ("hera." ++ models_type ++ ".models.io.k8s.api.core.v1")
            "Protocol" none,
          ImportReference.mk ("hera." ++ models_type ++ ".models.io.k8s.api.core.v1")
            "Scheme" none,
          ImportReference.mk ("hera." ++ models_type ++ ".models.io.k8s.api.core.v1")
            "Operator" none,
          ImportReference.mk ("hera." ++ models_type ++ ".models.io.k8s.api.core.v1")
            "Type" none,
          ImportReference.mk ("hera." ++ models_type ++ ".models.io.k8s.api.core.v1")
            "Phase" none,
          ImportReference.mk ("hera." ++ models_type ++ ".models.io.k8s.api.core.v1")
            "TypeModel" none,
          ImportReference.mk ("hera." ++ models_type ++ ".models.io.k8s.api.core.v1")
            "Effect" none,
          ImportReference.mk ("hera." ++ models_type ++ ".models.io.k8s.api.core.v1")
            "OperatorModel" none] := by
  by_cases h : models_type = "events" <;>
    simp [write_imports, h, event_symbols, enum_symbols]

/-- C10: `write_imports` grows its input list in place: the list seen by
the caller afterwards is the input plus the fixed appended descriptors,
and a second invocation on that list appends them again, so the fixed
descriptors are emitted twice. -/
theorem write_imports_mutates_references (references : List ImportReference)
    (models_type u1 u2 : String) :
    (write_imports references models_type u1).snd
        = references ++ appended_refs models_type ∧
      (write_imports (write_imports references models_type u1).snd models_type u2).snd
        = references ++ appended_refs models_type ++ appended_refs models_type := by
  constructor <;>
    (by_cases h : models_type = "events" <;>
      simp [write_imports, appended_refs, h])

lemma models_strs_sorted (refs : List ImportReference) :
    (models_strs refs).Sorted (fun a b : String => a ≤ b) := by
  have h := @List.sorted_mergeSort String (fun a b : String => decide (a ≤ b))
    (fun a b c hab hbc => by
      simp only [decide_eq_true_eq] at *
      exact le_trans hab hbc)
    (fun a b => by
      simp only [Bool.or_eq_true, decide_eq_true_eq]
      exact le_total a b)
    (refs.map (fun r => "\"" ++ r.aliased_name ++ "\""))
  unfold models_strs
  exact h.imp (fun hab => by simpa using hab)

lemma models_strs_perm (refs : List ImportReference) :
    (models_strs refs).Perm (refs.map (fun r => "\"" ++ r.aliased_name ++ "\"")) :=
  List.mergeSort_perm _ _

lemma alias_of_mem_write_imports (references : List ImportReference)
    (models_type url : String) (r : ImportReference)
    (hr : r ∈ (write_imports references models_type url).snd) :
    r ∈ references ∨ r.aliasOpt = none := by
  have hsnd : (write_imports references models_type url).snd =
      (if models_type = "events" then
        references ++ event_symbols.map
          (fun e =>
            ImportReference.mk "hera.events.models.io.argoproj.workflow.v1alpha1" e none)
      else references) ++
        enum_symbols.map
          (fun e =>
            ImportReference.mk
              ("hera." ++ models_type ++ ".models.io.k8s.api.core.v1") e none) := rfl
  rw [hsnd] at hr
  rcases List.mem_append.mp hr with h | h
  · by_cases he : models_type = "events"
    · rw [if_pos he] at h
      rcases List.mem_append.mp h with h2 | h2
      · exact Or.inl h2
      · obtain ⟨e, -, rfl⟩ := List.mem_map.mp h2
        exact Or.inr rfl
    · rw [if_neg he] at h
      exact Or.inl h
  · obtain ⟨e, -, rfl⟩ := List.mem_map.mp h
    exact Or.inr rfl

/-- C7: the export list of a generated file is alphabetically sorted and
holds exactly one entry per emitted descriptor, the quoted alias when an
alias is present and otherwise the quoted symbol name (the hypothesis
rules out the empty-string alias no pipeline descriptor carries). -/
theorem export_list_sorted_one_entry_each (references : List ImportReference)
    (models_type url : String)
    (h : ∀ r ∈ references, r.aliasOpt ≠ some "") :
    ((models_strs (write_imports references models_type url).snd).Sorted
        (fun a b : String => a ≤ b)) ∧
      (models_strs (write_imports references models_type url).snd).Perm
        ((write_imports references models_type url).snd.map
          (fun r => "\"" ++ (match r.aliasOpt with
            | some a => a
            | none => r.name) ++ "\"")) := by
  refine ⟨models_strs_sorted _, ?_⟩
  have hmap : ((write_imports references models_type url).snd).map
        (fun r => "\"" ++ r.aliased_name ++ "\"")
      = ((write_imports references models_type url).snd).map
          (fun r => "\"" ++ (match r.aliasOpt with
            | some a => a
            | none => r.name) ++ "\"") := by
    apply List.map_eq_map_iff.mpr
    intro r hr
    have hal : r.aliasOpt ≠ some "" := by
      rcases alias_of_mem_write_imports references models_type url r hr with hm | hn
      · exact h r hm
      · rw [hn]; exact fun hcon => by cases hcon
    unfold ImportReference.aliased_name
    cases hra : r.aliasOpt with
    | none => rfl
    | some a =>
      have ha : ¬ a = "" := fun he => hal (by rw [hra, he])
      simp [ha]
  exact (models_strs_perm _).trans (by rw [hmap])

/-- C7 witness: a concrete one-descriptor generation run has a sorted
export list with one entry per emitted descriptor. -/
theorem export_list_sorted_one_entry_each_witness :
    (∀ r ∈ [ImportReference.mk "hera.workflows.models.io.k8s.api.core.v1" "Pod" none],
        r.aliasOpt ≠ some "") ∧
      (((models_strs (write_imports
            [ImportReference.mk "hera.workflows.models.io.k8s.api.core.v1" "Pod" none]
            "workflows" "http://localhost/spec.json").snd).Sorted
          (fun a b : String => a ≤ b)) ∧
        (models_strs (write_imports
            [ImportReference.mk "hera.workflows.models.io.k8s.api.core.v1" "Pod" none]
            "workflows" "http://localhost/spec.json").snd).Perm
          ((write_imports
              [ImportReference.mk "hera.workflows.models.io.k8s.api.core.v1" "Pod" none]
              "workflows" "http://localhost/spec.json").snd.map
            (fun r => "\"" ++ (match r.aliasOpt with
              | some a => a
              | none => r.name) ++ "\""))) :=
  ⟨by decide,
    export_list_sorted_one_entry_each
      [ImportReference.mk "hera.workflows.models.io.k8s.api.core.v1" "Pod" none]
      "workflows" "http://localhost/spec.json" (by decide)⟩
